import Mathlib

/-!
Shallow embedding of the bunbun route resolver (src/routes.rs, src/main.rs,
src/config.rs, src/error.rs) and proofs about its specification.
-/

namespace BunBun

/-- Mirrors `config.rs` `enum RouteType`: an external path (e.g. a URL) or an
internal path (to a file). -/
inductive RouteType
  | External
  | Internal
deriving DecidableEq, Repr

/-- Mirrors `config.rs` `struct Route`. -/
structure Route where
  route_type : RouteType
  path : String
  hidden : Bool
  description : Option String
  min_args : Option Nat
  max_args : Option Nat
deriving DecidableEq, Repr

/-- Mirrors `routes.rs` `enum RouteResolution`: either a resolved route with
its residual argument string, or unresolved. -/
inductive RouteResolution
  | Resolved (route : Route) (args : String)
  | Unresolved
deriving DecidableEq, Repr

/-- Rust `char::is_ascii_whitespace`: space, tab, newline, form feed, or
carriage return. -/
def isAsciiWhitespace (c : Char) : Bool :=
  c = ' ' || c = '\t' || c = '\n' || c = '\x0c' || c = '\r'

/-- Splits a character list at every character satisfying `p`, keeping empty
chunks between adjacent separators and at the ends. -/
def splitCharList (p : Char → Bool) : List Char → List (List Char)
  | [] => [[]]
  | c :: cs =>
    if p c then [] :: splitCharList p cs
    else
      match splitCharList p cs with
      | [] => [[c]]
      | t :: ts => (c :: t) :: ts

/-- Rust `str::split` with a character predicate: every separator character
yields a boundary, so adjacent separators produce empty substrings and the
empty string yields one empty substring. -/
def stringSplit (s : String) (p : Char → Bool) : List String :=
  (splitCharList p s.toList).map String.mk

/-- Rust `str::split_ascii_whitespace`: split on runs of ASCII whitespace,
discarding empty substrings. -/
def splitAsciiWhitespace (s : String) : List String :=
  (stringSplit s isAsciiWhitespace).filter (fun t => t ≠ "")

/-- Mirrors `routes.rs` `check_route`: checks that the argument count lies
within the optional inclusive `min_args`/`max_args` bounds of the route. -/
def check_route (route : Route) (arg_count : Nat) : Bool :=
  match route.min_args with
  | some min_args =>
    if arg_count < min_args then false
    else
      match route.max_args with
      | some max_args => if arg_count > max_args then false else true
      | none => true
  | none =>
    match route.max_args with
    | some max_args => if arg_count > max_args then false else true
    | none => true

/-- Mirrors `routes.rs` `resolve_hop`. The `HashMap` lookup `routes.get` is
embedded as a function from keyword to optional route. The query is split on
ASCII whitespace; an empty token list is unresolved; a first token matching a
keyword whose constraints accept `token count - 1` resolves with the remaining
tokens joined by spaces; otherwise the default route is tried against the full
token list. -/
def resolve_hop (query : String) (routes : String → Option Route)
    (default_route : Option String) : RouteResolution :=
  let args := splitAsciiWhitespace query
  match args with
  | [] => .Unresolved
  | command :: rest =>
    let arg_count := args.length
    let tryDefault : RouteResolution :=
      match default_route with
      | some name =>
        match routes name with
        | some route =>
          if check_route route arg_count then
            .Resolved route (String.intercalate " " args)
          else .Unresolved
        | none => .Unresolved
      | none => .Unresolved
    match routes command with
    | some route =>
      if check_route route (arg_count - 1) then
        .Resolved route (String.intercalate " " rest)
      else tryDefault
    | none => tryDefault

/-- Mirrors `config.rs` `struct RouteGroup`. The Rust `HashMap` of routes is
embedded as an association list of keyword-route pairs; a `HashMap` has no
duplicate keys, which theorems state as a `Nodup` hypothesis on the keys. -/
structure RouteGroup where
  name : String
  description : Option String
  hidden : Bool
  routes : List (String × Route)
deriving DecidableEq, Repr

/-- Mirrors `config.rs` `struct Config`. -/
structure Config where
  bind_address : String
  public_address : String
  default_route : Option String
  groups : List RouteGroup
deriving DecidableEq, Repr

/-- Mirrors `error.rs` `enum BunBunError`. Error payloads of external library
types (IO errors, YAML errors, watcher errors, JSON errors) are embedded as
their message strings. -/
inductive BunBunError
  | Io (msg : String)
  | Parse (msg : String)
  | Watch (msg : String)
  | CustomProgram (msg : String)
  | NoValidConfigPath
  | InvalidConfigPath (path : String) (msg : String)
  | ConfigTooLarge (size : Nat)
  | ZeroByteConfig
  | JsonParse (msg : String)
deriving DecidableEq, Repr

/-- Mirrors `main.rs` `struct State`: the dynamic data behind the shared
reference, including the cached flattened route mapping. The mapping is
embedded as a lookup function, matching the embedding used by
`resolve_hop`. -/
structure State where
  public_address : String
  default_route : Option String
  groups : List RouteGroup
  routes : String → Option Route

/-- Rust `HashMap::insert` on the lookup-function embedding of the route
mapping: the new binding shadows any previous binding for the same key. -/
def insertRoute (m : String → Option Route) (k : String) (r : Route) :
    String → Option Route :=
  fun q => if q = k then some r else m q

/-- Mirrors `main.rs` `cache_routes`: iterates the groups in order and inserts
every keyword-route pair into one flattened mapping, so pairs from later
groups overwrite pairs from earlier groups. -/
def cache_routes (groups : List RouteGroup) : String → Option Route :=
  groups.foldl
    (fun m g => g.routes.foldl (fun acc kv => insertRoute acc kv.1 kv.2) m)
    (fun _ => none)

/-- Whether a group binds the given keyword. -/
def groupHasKeyword (g : RouteGroup) (k : String) : Bool :=
  g.routes.any (fun p => p.1 == k)

/-- Mirrors the reload callback body in `main.rs` `start_watch` (lines
193-215): on a successful `read_config` the four `State` fields are replaced
from the new `Config` (with `routes` rebuilt by `cache_routes`); on any
`BunBunError` the callback only logs a warning and the state is left
untouched. -/
def reload_state (st : State) (conf : Except BunBunError Config) : State :=
  match conf with
  | .ok conf =>
    { public_address := conf.public_address
      default_route := conf.default_route
      groups := conf.groups
      routes := cache_routes conf.groups }
  | .error _ => st

/-- Mirrors `config.rs` `LARGE_FILE_SIZE_THRESHOLD` (non-test build). -/
def LARGE_FILE_SIZE_THRESHOLD : Nat := 100000000

/-- Mirrors `config.rs` `load_file`. The file is embedded by its metadata byte
length and its content string; the external `serde_yaml` parser is a
parameter returning either a `Config` or an error message. The size checks
run before the content is ever given to the parser. -/
def load_file (parseConfig : String → Except String Config) (file_size : Nat)
    (content : String) (large_config : Bool) : Except BunBunError Config :=
  if file_size > LARGE_FILE_SIZE_THRESHOLD ∧ large_config = false then
    .error (.ConfigTooLarge file_size)
  else if file_size = 0 then
    .error .ZeroByteConfig
  else
    match parseConfig content with
    | .ok conf => .ok conf
    | .error e => .error (.Parse e)

/-- A JSON value, used to model the document that `serde_json` produces from
the standard output of a local route program. -/
inductive Json
  | null
  | bool (b : Bool)
  | num (n : Int)
  | str (s : String)
  | arr (elems : List Json)
  | obj (entries : List (String × Json))

/-- Mirrors `routes.rs` `enum HopAction`. -/
inductive HopAction
  | Redirect (s : String)
  | Body (s : String)
deriving DecidableEq, Repr

/-- The serde externally-tagged deserialization of `HopAction` from a JSON
value, as derived for the enum in `routes.rs` with snake_case variant names:
the document must be a map with a single key, `redirect` or `body`, whose
value is a string; every other document is a deserialization error. -/
def hopActionFromJson : Json → Except String HopAction
  | .obj [] => .error "expected a map with a single key"
  | .obj ((k, v) :: rest) =>
    if k = "redirect" then
      match v with
      | .str s =>
        match rest with
        | [] => .ok (.Redirect s)
        | _ :: _ => .error "expected a map with a single key"
      | _ => .error "invalid type for variant redirect"
    else if k = "body" then
      match v with
      | .str s =>
        match rest with
        | [] => .ok (.Body s)
        | _ :: _ => .error "expected a map with a single key"
      | _ => .error "invalid type for variant body"
    else .error "unknown variant"
  | _ => .error "invalid type: expected a map"

/-- The observable result of running the child process in `routes.rs`
`resolve_path`: the exit status, the standard output after the external
`serde_json` library has decoded and lexed its bytes into a JSON value (the
error case covers invalid encodings and malformed JSON text), and the
standard error decoded as text. -/
structure ProcOutput where
  status_success : Bool
  stdout : Except String Json
  stderr : String

/-- The child process invocation built by `routes.rs` `resolve_path`: the
canonicalized program path and its argument vector. -/
structure Command where
  program : String
  args : List String
deriving DecidableEq, Repr

/-- Mirrors the `Command` construction in `resolve_path`: the canonicalized
path is the program, and the residual argument string is split on single
space characters to form the argument vector. -/
def resolve_path_command (canonical_path : String) (args : String) : Command :=
  { program := canonical_path, args := stringSplit args (fun c => c = ' ') }

/-- Mirrors the output handling in `resolve_path`: on a successful exit
status the standard output is deserialized as a `HopAction` (any failure
becoming a `JsonParse` error); on a failing exit status the standard error
text is wrapped in a `CustomProgram` error and the standard output is never
consulted. -/
def resolve_path_output (output : ProcOutput) : Except BunBunError HopAction :=
  if output.status_success then
    match output.stdout with
    | .ok j =>
      match hopActionFromJson j with
      | .ok action => .ok action
      | .error e => .error (.JsonParse e)
    | .error e => .error (.JsonParse e)
  else
    .error (.CustomProgram output.stderr)

/-- The five recognized field identifiers of the map form of a route document
in `config.rs` (the serde `Field` enum inside `Route` deserialization). -/
inductive Field
  | path
  | hidden
  | description
  | min_args
  | max_args
deriving DecidableEq, Repr

/-- One key-value entry of a map-form route document whose key is a
recognized field and whose value deserialized at the type the visitor
requests: `next_value` is called at `String` for `path` and `description`,
at `Option Bool` for `hidden` (so a null value is accepted and produces
`none`), and at a natural number for `min_args` and `max_args`. -/
inductive RouteMapEntry
  | path (v : String)
  | hidden (v : Option Bool)
  | description (v : String)
  | min_args (v : Nat)
  | max_args (v : Nat)
deriving DecidableEq, Repr

/-- The field a map entry belongs to. -/
def entryField : RouteMapEntry → Field
  | .path _ => .path
  | .hidden _ => .hidden
  | .description _ => .description
  | .min_args _ => .min_args
  | .max_args _ => .max_args

/-- The serde field name used in duplicate-field error messages. -/
def fieldName : Field → String
  | .path => "path"
  | .hidden => "hidden"
  | .description => "description"
  | .min_args => "min_args"
  | .max_args => "max_args"

/-- The deserialization errors produced by the `Route` map visitor in
`config.rs`: a duplicate field, an invalid argument count range carrying the
two counts, or a missing `path` field. -/
inductive DeError
  | duplicateField (name : String)
  | invalidValue (low high : Nat)
  | missingField (name : String)
deriving DecidableEq, Repr

/-- The local accumulator variables of `visit_map` in `config.rs`. -/
structure Acc where
  path : Option String
  hidden : Option Bool
  description : Option String
  min_args : Option Nat
  max_args : Option Nat
deriving DecidableEq, Repr

/-- Whether the accumulator slot for a field already holds a value; this is
the `is_some` test each field match arm performs before assigning. -/
def accIsSome (a : Acc) : Field → Bool
  | .path => a.path.isSome
  | .hidden => a.hidden.isSome
  | .description => a.description.isSome
  | .min_args => a.min_args.isSome
  | .max_args => a.max_args.isSome

/-- The assignment each field match arm performs: every field wraps the
deserialized value in `some`, except `hidden`, which assigns the deserialized
`Option Bool` directly (the missing `Some` wrapper in the source). -/
def applyEntry (a : Acc) : RouteMapEntry → Acc
  | .path v => { a with path := some v }
  | .hidden v => { a with hidden := v }
  | .description v => { a with description := some v }
  | .min_args v => { a with min_args := some v }
  | .max_args v => { a with max_args := some v }

/-- Whether consuming the entry leaves the accumulator slot occupied, arming
the duplicate check for a later occurrence of the same field: true for every
entry except a `hidden` entry whose value was null. -/
def arms : RouteMapEntry → Bool
  | .hidden none => false
  | .hidden (some _) => true
  | .path _ => true
  | .description _ => true
  | .min_args _ => true
  | .max_args _ => true

/-- The end-of-map processing of `visit_map` (config.rs lines 155-176): first
the argument count range is validated when both bounds are present, then a
missing `path` is rejected, and finally the `Route` is built, classifying the
path with the (filesystem-dependent) `get_route_type`, embedded as a
parameter. -/
def visitMapFinish (get_route_type : String → RouteType) (a : Acc) :
    Except DeError Route :=
  if (match a.min_args, a.max_args with
      | some mi, some ma => decide (mi > ma)
      | _, _ => false) = true then
    .error (.invalidValue (a.min_args.getD 0) (a.max_args.getD 0))
  else
    match a.path with
    | none => .error (.missingField "path")
    | some path =>
      .ok { route_type := get_route_type path, path := path
            hidden := a.hidden.getD false, description := a.description
            min_args := a.min_args, max_args := a.max_args }

/-- The entry loop of `visit_map`: for each entry, if the accumulator slot of
its field is already occupied a duplicate-field error is returned, otherwise
the slot is assigned and the loop continues. -/
def visitMapGo (get_route_type : String → RouteType) (a : Acc) :
    List RouteMapEntry → Except DeError Route
  | [] => visitMapFinish get_route_type a
  | e :: rest =>
    if accIsSome a (entryField e) then
      .error (.duplicateField (fieldName (entryField e)))
    else visitMapGo get_route_type (applyEntry a e) rest

/-- Mirrors `config.rs` `visit_map` for the map form of a route document: the
entry loop started with all accumulator slots empty. -/
def visit_map (get_route_type : String → RouteType)
    (entries : List RouteMapEntry) : Except DeError Route :=
  visitMapGo get_route_type ⟨none, none, none, none, none⟩ entries

/-- A concrete external route used by witnesses. -/
def exampleRoute : Route :=
  { route_type := .External, path := "https://example.com", hidden := false
    description := none, min_args := none, max_args := none }

/-- A concrete one-entry route mapping used by witnesses. -/
def exampleRoutes : String → Option Route :=
  fun k => if k = "google" then some exampleRoute else none

/-- A concrete stub YAML parser used by witnesses. -/
def exampleParse : String → Except String Config :=
  fun _ => .error "stub"

/-- A second concrete stub YAML parser, used to witness that the size checks
do not consult the parser. -/
def exampleParse2 : String → Except String Config :=
  fun _ =>
    .ok { bind_address := "127.0.0.1:8080", public_address := "localhost"
          default_route := none, groups := [] }

/-- A second concrete external route used by witnesses. -/
def exampleRoute2 : Route :=
  { route_type := .External, path := "https://two.example", hidden := false
    description := none, min_args := none, max_args := none }

/-- A concrete route group used by witnesses. -/
def exampleGroup1 : RouteGroup :=
  { name := "g1", description := none, hidden := false
    routes := [("a", exampleRoute), ("c", exampleRoute)] }

/-- A second concrete route group sharing the keyword `a` with the first,
used by witnesses. -/
def exampleGroup2 : RouteGroup :=
  { name := "g2", description := none, hidden := false
    routes := [("a", exampleRoute2), ("b", exampleRoute2)] }

/-- C2: when the query splits on ASCII whitespace into a first token that is
a keyword of the index and the matched route accepts `token count - 1`
arguments, `resolve_hop` resolves to that route with the remaining tokens
joined by single spaces (the empty string when none remain). -/
theorem resolve_hop_keyword_match (query first : String) (rest : List String)
    (routes : String → Option Route) (default_route : Option String) (r : Route)
    (hsplit : splitAsciiWhitespace query = first :: rest)
    (hget : routes first = some r)
    (hcheck : check_route r rest.length = true) :
    resolve_hop query routes default_route
      = RouteResolution.Resolved r (String.intercalate " " rest) := by
  simp [resolve_hop, hsplit, hget, hcheck]

/-- Witness for C2 at a concrete query and index. -/
theorem resolve_hop_keyword_match_witness :
    resolve_hop "google hello world" exampleRoutes none
      = RouteResolution.Resolved exampleRoute
          (String.intercalate " " ["hello", "world"]) :=
  resolve_hop_keyword_match "google hello world" "google" ["hello", "world"]
    exampleRoutes none exampleRoute (by decide) (by decide) (by decide)

/-- C1: when the first token misses the index or the matched route rejects
`token count - 1` arguments, the default route alone decides the outcome: a
set default that is a key of the index and accepts the total token count
resolves with all tokens joined by single spaces, while an unset, absent, or
rejecting default leaves the query unresolved. -/
theorem resolve_hop_default_fallback (query first : String) (rest : List String)
    (routes : String → Option Route) (default_route : Option String)
    (hsplit : splitAsciiWhitespace query = first :: rest)
    (hfail : routes first = none
      ∨ ∃ r, routes first = some r ∧ check_route r rest.length = false) :
    (∀ d rd, default_route = some d → routes d = some rd →
        check_route rd (first :: rest).length = true →
        resolve_hop query routes default_route
          = RouteResolution.Resolved rd (String.intercalate " " (first :: rest)))
    ∧ ((default_route = none
          ∨ ∃ d, default_route = some d ∧
              (routes d = none
                ∨ ∃ rd, routes d = some rd ∧
                    check_route rd (first :: rest).length = false)) →
        resolve_hop query routes default_route = RouteResolution.Unresolved) := by
  constructor
  · intro d rd hd hrd hchk
    subst hd
    simp only [List.length_cons] at hchk
    rcases hfail with hnone | ⟨r, hr, hfalse⟩
    · simp [resolve_hop, hsplit, hnone, hrd, hchk]
    · simp [resolve_hop, hsplit, hr, hfalse, hrd, hchk]
  · intro hdef
    rcases hfail with hnone | ⟨r, hr, hfalse⟩ <;>
      rcases hdef with hnone2 | ⟨d, hd, hdnone | ⟨rd, hrd, hdfalse⟩⟩ <;>
      subst_vars <;>
      simp_all [resolve_hop, hsplit]

/-- Witness for C1 at a concrete query whose first token misses the index
and whose default route resolves with the full token list. -/
theorem resolve_hop_default_fallback_witness :
    resolve_hop "hello world" exampleRoutes (some "google")
      = RouteResolution.Resolved exampleRoute
          (String.intercalate " " ["hello", "world"]) :=
  (resolve_hop_default_fallback "hello world" "hello" ["world"] exampleRoutes
    (some "google") (by decide) (Or.inl (by decide))).1
    "google" exampleRoute rfl (by decide) (by decide)

/-- C9: a failed reload leaves the published state entirely untouched: the
state value and each of its four fields keep the values from the last
successful publish, for every error kind. -/
theorem start_watch_reload_failure (st : State) (e : BunBunError) :
    reload_state st (Except.error e) = st
    ∧ (reload_state st (Except.error e)).public_address = st.public_address
    ∧ (reload_state st (Except.error e)).default_route = st.default_route
    ∧ (reload_state st (Except.error e)).groups = st.groups
    ∧ (reload_state st (Except.error e)).routes = st.routes :=
  ⟨rfl, rfl, rfl, rfl, rfl⟩

/-- C8: loading a config raises a too-large error when its byte length
exceeds the threshold unless the large-config override is set, and a distinct
zero-byte error when the length is zero; in both cases the result does not
depend on the parser, and only a config passing both checks is parsed. -/
theorem load_file_size_checks (p q : String → Except String Config)
    (file_size : Nat) (content : String) (large_config : Bool) :
    (file_size > LARGE_FILE_SIZE_THRESHOLD → large_config = false →
        load_file p file_size content large_config
          = .error (.ConfigTooLarge file_size))
    ∧ (file_size = 0 →
        load_file p file_size content large_config = .error .ZeroByteConfig)
    ∧ (file_size > LARGE_FILE_SIZE_THRESHOLD → large_config = false →
        load_file p file_size content large_config
          = load_file q file_size content large_config)
    ∧ (file_size = 0 →
        load_file p file_size content large_config
          = load_file q file_size content large_config)
    ∧ ((file_size > LARGE_FILE_SIZE_THRESHOLD → large_config = true) →
        file_size ≠ 0 →
        load_file p file_size content large_config
          = match p content with
            | .ok conf => .ok conf
            | .error e => .error (.Parse e))
    ∧ (∀ n, BunBunError.ConfigTooLarge n ≠ BunBunError.ZeroByteConfig) := by
  refine ⟨?_, ?_, ?_, ?_, ?_, ?_⟩
  · intro hgt hlc; simp [load_file, hgt, hlc]
  · intro h0; subst h0; simp [load_file, LARGE_FILE_SIZE_THRESHOLD]
  · intro hgt hlc; simp [load_file, hgt, hlc]
  · intro h0; subst h0; simp [load_file, LARGE_FILE_SIZE_THRESHOLD]
  · intro hnot hne
    have h1 : ¬(file_size > LARGE_FILE_SIZE_THRESHOLD ∧ large_config = false) := by
      rintro ⟨hgt, hlc⟩
      rw [hnot hgt] at hlc
      exact Bool.noConfusion hlc
    simp [load_file, h1, hne]
  · intro n hEq; exact BunBunError.noConfusion hEq

/-- Witness for C8 at concrete sizes. -/
theorem load_file_size_checks_witness :
    load_file exampleParse 0 "" false = .error .ZeroByteConfig
    ∧ load_file exampleParse 100000001 "" false
        = .error (.ConfigTooLarge 100000001) :=
  ⟨(load_file_size_checks exampleParse exampleParse2 0 "" false).2.1 rfl,
   (load_file_size_checks exampleParse exampleParse2 100000001 "" false).1
     (by decide) rfl⟩

/-- C4: a local route program exiting with non-zero status yields a
custom-program error carrying the standard error text, and the result is the
same whatever the standard output holds. -/
theorem resolve_path_nonzero_exit (output : ProcOutput)
    (h : output.status_success = false) :
    resolve_path_output output = .error (.CustomProgram output.stderr)
    ∧ (∀ stdout2 : Except String Json,
        resolve_path_output { output with stdout := stdout2 }
          = .error (.CustomProgram output.stderr)) := by
  refine ⟨?_, fun stdout2 => ?_⟩ <;> simp [resolve_path_output, h]

/-- Witness for C4 at a concrete process output. -/
theorem resolve_path_nonzero_exit_witness :
    resolve_path_output ⟨false, .ok .null, "boom"⟩
      = .error (.CustomProgram "boom") :=
  (resolve_path_nonzero_exit ⟨false, .ok .null, "boom"⟩ rfl).1

/-- Helper: every JSON document other than a single-key map binding
`redirect` or `body` to a string fails `HopAction` deserialization. -/
theorem hopActionFromJson_error_of_shape (j : Json)
    (hr : ∀ s, j ≠ .obj [("redirect", .str s)])
    (hb : ∀ s, j ≠ .obj [("body", .str s)]) :
    ∃ e, hopActionFromJson j = .error e := by
  cases j
  case obj entries =>
    cases entries with
    | nil => exact ⟨_, rfl⟩
    | cons kv rest =>
      obtain ⟨k, v⟩ := kv
      by_cases hk : k = "redirect"
      · subst hk
        cases v with
        | str s =>
          cases rest with
          | nil => exact absurd rfl (hr s)
          | cons a t =>
            exact ⟨"expected a map with a single key", by simp [hopActionFromJson]⟩
        | null => exact ⟨_, by simp [hopActionFromJson]; rfl⟩
        | bool b => exact ⟨_, by simp [hopActionFromJson]; rfl⟩
        | num n => exact ⟨_, by simp [hopActionFromJson]; rfl⟩
        | arr l => exact ⟨_, by simp [hopActionFromJson]; rfl⟩
        | obj o => exact ⟨_, by simp [hopActionFromJson]; rfl⟩
      · by_cases hb2 : k = "body"
        · subst hb2
          cases v with
          | str s =>
            cases rest with
            | nil => exact absurd rfl (hb s)
            | cons a t =>
              exact ⟨"expected a map with a single key", by simp [hopActionFromJson]⟩
          | null => exact ⟨_, by simp [hopActionFromJson, hk]; rfl⟩
          | bool b => exact ⟨_, by simp [hopActionFromJson, hk]; rfl⟩
          | num n => exact ⟨_, by simp [hopActionFromJson, hk]; rfl⟩
          | arr l => exact ⟨_, by simp [hopActionFromJson, hk]; rfl⟩
          | obj o => exact ⟨_, by simp [hopActionFromJson, hk]; rfl⟩
        · exact ⟨"unknown variant", by simp [hopActionFromJson, hk, hb2]⟩
  all_goals exact ⟨_, rfl⟩

/-- C5: a local route program exiting with status zero has its standard
output parsed as a JSON object of exactly the shape binding `redirect` or
`body` to a string, mapping to the matching action; any other output yields a
`JsonParse` error, an error kind distinct from the non-zero-exit
`CustomProgram` error. -/
theorem resolve_path_zero_exit (output : ProcOutput)
    (h : output.status_success = true) :
    (∀ s, output.stdout = .ok (.obj [("redirect", .str s)]) →
        resolve_path_output output = .ok (.Redirect s))
    ∧ (∀ s, output.stdout = .ok (.obj [("body", .str s)]) →
        resolve_path_output output = .ok (.Body s))
    ∧ (∀ j, output.stdout = .ok j →
        (∀ s, j ≠ .obj [("redirect", .str s)]) →
        (∀ s, j ≠ .obj [("body", .str s)]) →
        ∃ e, resolve_path_output output = .error (.JsonParse e))
    ∧ (∀ e, output.stdout = .error e →
        resolve_path_output output = .error (.JsonParse e))
    ∧ (∀ e msg, BunBunError.JsonParse e ≠ BunBunError.CustomProgram msg) := by
  refine ⟨?_, ?_, ?_, ?_, ?_⟩
  · intro s hs; simp [resolve_path_output, h, hs, hopActionFromJson]
  · intro s hs; simp [resolve_path_output, h, hs, hopActionFromJson]
  · intro j hj hr hb
    obtain ⟨e, he⟩ := hopActionFromJson_error_of_shape j hr hb
    exact ⟨e, by simp [resolve_path_output, h, hj, he]⟩
  · intro e he; simp [resolve_path_output, h, he]
  · intro e msg hEq; exact BunBunError.noConfusion hEq

/-- Witness for C5 at a concrete process output. -/
theorem resolve_path_zero_exit_witness :
    resolve_path_output ⟨true, .ok (.obj [("redirect", .str "https://x")]), ""⟩
      = .ok (.Redirect "https://x") :=
  (resolve_path_zero_exit ⟨true, .ok (.obj [("redirect", .str "https://x")]), ""⟩
    rfl).1 "https://x" rfl

/-- Helper: splitting a character list always yields at least one chunk. -/
theorem splitCharList_ne_nil (p : Char → Bool) (cs : List Char) :
    splitCharList p cs ≠ [] := by
  cases cs with
  | nil => simp [splitCharList]
  | cons c cs =>
    simp only [splitCharList]
    split
    · simp
    · split <;> simp

/-- Helper: interleaving the space character back between the chunks of a
space split reconstructs the original character list. -/
theorem splitCharList_space_join (cs t : List Char) (ts : List (List Char))
    (h : splitCharList (fun c => c = ' ') cs = t :: ts) :
    t ++ (ts.map (fun b => ' ' :: b)).flatten = cs := by
  induction cs generalizing t ts with
  | nil =>
    simp [splitCharList] at h
    obtain ⟨h1, h2⟩ := h
    subst h1; subst h2
    simp
  | cons c cs ih =>
    by_cases hc : c = ' '
    · rw [splitCharList, if_pos (by simp [hc])] at h
      obtain ⟨t2, ts2, hsc⟩ :
          ∃ t2 ts2, splitCharList (fun c => c = ' ') cs = t2 :: ts2 := by
        cases hsc : splitCharList (fun c => c = ' ') cs with
        | nil => exact absurd hsc (splitCharList_ne_nil _ _)
        | cons a b => exact ⟨a, b, rfl⟩
      rw [hsc] at h
      obtain ⟨h1, h2⟩ := List.cons.inj h
      subst h1; subst h2
      simp [hc, ih t2 ts2 hsc]
    · rw [splitCharList, if_neg (by simp [hc])] at h
      obtain ⟨t2, ts2, hsc⟩ :
          ∃ t2 ts2, splitCharList (fun c => c = ' ') cs = t2 :: ts2 := by
        cases hsc : splitCharList (fun c => c = ' ') cs with
        | nil => exact absurd hsc (splitCharList_ne_nil _ _)
        | cons a b => exact ⟨a, b, rfl⟩
      rw [hsc] at h
      obtain ⟨h1, h2⟩ := List.cons.inj h
      subst h1; subst h2
      simp [ih t2 ts2 hsc]

/-- Helper: the character data produced by the accumulating loop of
`String.intercalate`. -/
theorem intercalate_go_data (as : List String) (acc s : String) :
    (String.intercalate.go acc s as).data
      = acc.data ++ (as.map (fun a => s.data ++ a.data)).flatten := by
  induction as generalizing acc with
  | nil => simp [String.intercalate.go]
  | cons a as ih =>
    simp [String.intercalate.go, ih, String.data_append, List.append_assoc]

/-- C6 counterexample: with an empty residual argument string the child
process is invoked with one extra argument, the empty string, not with zero
extra arguments as claimed. -/
theorem resolve_path_command_empty_args_counterexample :
    (resolve_path_command "/bin/echo" "").args = [""]
    ∧ (resolve_path_command "/bin/echo" "").args ≠ [] := by decide

/-- C6 amended: the canonicalized executable is invoked with the residual
argument string split on single spaces as separate process arguments, so
joining the arguments with single spaces recovers the residual string, the
argument vector is never empty, and an empty residual string yields exactly
one extra argument, the empty string. -/
theorem resolve_path_command_args (canonical_path args : String) :
    (resolve_path_command canonical_path args).program = canonical_path
    ∧ (resolve_path_command canonical_path args).args
        = stringSplit args (fun c => c = ' ')
    ∧ String.intercalate " " (resolve_path_command canonical_path args).args
        = args
    ∧ (args = "" → (resolve_path_command canonical_path args).args = [""])
    ∧ (resolve_path_command canonical_path args).args ≠ [] := by
  obtain ⟨t, ts, hsc⟩ :
      ∃ t ts, splitCharList (fun c => c = ' ') args.toList = t :: ts := by
    cases hsc : splitCharList (fun c => c = ' ') args.toList with
    | nil => exact absurd hsc (splitCharList_ne_nil _ _)
    | cons a b => exact ⟨a, b, rfl⟩
  refine ⟨rfl, rfl, ?_, ?_, ?_⟩
  · show String.intercalate " " (stringSplit args (fun c => c = ' ')) = args
    unfold stringSplit
    rw [hsc]
    apply String.ext
    rw [List.map_cons, String.intercalate, intercalate_go_data]
    show (t : List Char) ++ _ = _
    rw [List.map_map]
    have : ((fun a => (" " : String).data ++ String.data a) ∘ String.mk)
        = fun b => ' ' :: b := by
      funext b
      rfl
    rw [this, splitCharList_space_join args.toList t ts hsc]
    rfl
  · intro h
    subst h
    rfl
  · show stringSplit args (fun c => c = ' ') ≠ []
    unfold stringSplit
    rw [hsc]
    simp

/-- Witness for the amended C6 at concrete argument strings. -/
theorem resolve_path_command_args_witness :
    String.intercalate " " (resolve_path_command "/bin/cat" "a b").args = "a b"
    ∧ (resolve_path_command "/bin/echo" "").args = [""] :=
  ⟨(resolve_path_command_args "/bin/cat" "a b").2.2.1,
   (resolve_path_command_args "/bin/echo" "").2.2.2.1 rfl⟩

/-- Helper: folding inserts of an association list with distinct keys over a
mapping looks up the key in the list first and falls back to the mapping. -/
theorem foldl_insertRoute_lookup (l : List (String × Route))
    (m : String → Option Route) (q : String)
    (h : (l.map Prod.fst).Nodup) :
    l.foldl (fun acc kv => insertRoute acc kv.1 kv.2) m q
      = (match l.find? (fun p => p.1 == q) with
        | some p => some p.2
        | none => m q) := by
  induction l generalizing m with
  | nil => rfl
  | cons kv t ih =>
    obtain ⟨k, r⟩ := kv
    simp only [List.map_cons, List.nodup_cons] at h
    obtain ⟨hk, ht⟩ := h
    rw [List.foldl_cons, ih _ ht]
    by_cases hq : k = q
    · subst hq
      have hfind : t.find? (fun p => p.1 == k) = none := by
        rw [List.find?_eq_none]
        intro p hp
        simp only [beq_iff_eq]
        intro hpk
        exact hk (hpk ▸ List.mem_map_of_mem Prod.fst hp)
      rw [hfind, List.find?_cons_of_pos _ (by simp)]
      simp [insertRoute]
    · rw [List.find?_cons_of_neg _ (by simp [hq])]
      cases hfind : t.find? (fun p => p.1 == q) with
      | some p => rfl
      | none =>
        simp only [insertRoute]
        rw [if_neg]
        intro h2
        exact hq h2.symm


/-- Helper: flattening one more group onto the end looks the keyword up in
that group first and falls back to the flattening of the earlier groups. -/
theorem cache_routes_append (gs : List RouteGroup) (g : RouteGroup) (k : String)
    (h : (g.routes.map Prod.fst).Nodup) :
    cache_routes (gs ++ [g]) k
      = (match g.routes.find? (fun p => p.1 == k) with
        | some p => some p.2
        | none => cache_routes gs k) := by
  unfold cache_routes
  rw [List.foldl_append, List.foldl_cons, List.foldl_nil]
  exact foldl_insertRoute_lookup g.routes _ k h

/-- Helper: a keyword is absent from the flattened mapping exactly when no
group binds it, and otherwise the bound route is the one of the last group
binding the keyword. -/
theorem cache_routes_lookup (groups : List RouteGroup) (k : String) :
    (∀ g ∈ groups, (g.routes.map Prod.fst).Nodup) →
    ((cache_routes groups k = none
        ↔ groups.filter (fun g => groupHasKeyword g k) = [])
      ∧ (∀ g2 p2,
          (groups.filter (fun g => groupHasKeyword g k)).getLast? = some g2 →
          g2.routes.find? (fun p => p.1 == k) = some p2 →
          cache_routes groups k = some p2.2)) := by
  induction groups using List.reverseRecOn with
  | nil =>
    intro _
    refine ⟨by simp [cache_routes], ?_⟩
    intro g2 p2 hlast hfind
    simp at hlast
  | append_singleton gs g ih =>
    intro hnd
    have step := cache_routes_append gs g k (hnd g (by simp))
    obtain ⟨ih1, ih2⟩ := ih (fun g2 hg2 => hnd g2 (by simp [hg2]))
    by_cases hhas : groupHasKeyword g k = true
    · obtain ⟨p0, hp0⟩ : ∃ p0, g.routes.find? (fun p => p.1 == k) = some p0 := by
        rw [← Option.isSome_iff_exists, List.find?_isSome]
        unfold groupHasKeyword at hhas
        rw [List.any_eq_true] at hhas
        exact hhas
      rw [hp0] at step
      have hfilter : (gs ++ [g]).filter (fun g => groupHasKeyword g k)
          = gs.filter (fun g => groupHasKeyword g k) ++ [g] := by
        simp [List.filter_append, hhas]
      constructor
      · rw [step, hfilter]
        simp
      · intro g2 p2 hlast hfind
        rw [hfilter, List.getLast?_concat] at hlast
        obtain rfl : g = g2 := by injection hlast
        rw [hp0] at hfind
        obtain rfl : p0 = p2 := by injection hfind
        exact step
    · have hfind : g.routes.find? (fun p => p.1 == k) = none := by
        rw [List.find?_eq_none]
        intro p hp hpk
        unfold groupHasKeyword at hhas
        rw [List.any_eq_true] at hhas
        exact hhas ⟨p, hp, hpk⟩
      rw [hfind] at step
      have hfilter : (gs ++ [g]).filter (fun g => groupHasKeyword g k)
          = gs.filter (fun g => groupHasKeyword g k) := by
        simp [List.filter_append, hhas]
      constructor
      · rw [step, hfilter]
        exact ih1
      · intro g2 p2 hlast hfind2
        rw [hfilter] at hlast
        rw [step]
        exact ih2 g2 p2 hlast hfind2


/-- C7: the flattened mapping of an ordered group sequence binds exactly the
union of the keywords of the groups, each keyword to the route of the last
group containing it, so later groups win conflicts while non-conflicting
keywords of earlier groups are preserved; the empty sequence yields the empty
mapping. -/
theorem cache_routes_spec (groups : List RouteGroup)
    (hnd : ∀ g ∈ groups, (g.routes.map Prod.fst).Nodup) (k : String) :
    cache_routes ([] : List RouteGroup) k = none
    ∧ (cache_routes groups k = none
        ↔ groups.filter (fun g => groupHasKeyword g k) = [])
    ∧ (∀ g2 p2,
        (groups.filter (fun g => groupHasKeyword g k)).getLast? = some g2 →
        g2.routes.find? (fun p => p.1 == k) = some p2 →
        cache_routes groups k = some p2.2) :=
  ⟨rfl, (cache_routes_lookup groups k hnd).1, (cache_routes_lookup groups k hnd).2⟩

/-- Witness for C7 at two concrete overlapping groups. -/
theorem cache_routes_spec_witness :
    cache_routes [exampleGroup1, exampleGroup2] "a" = some exampleRoute2
    ∧ cache_routes [exampleGroup1, exampleGroup2] "c" = some exampleRoute :=
  ⟨(cache_routes_spec [exampleGroup1, exampleGroup2] (by decide) "a").2.2
      exampleGroup2 ("a", exampleRoute2) (by decide) (by decide),
   (cache_routes_spec [exampleGroup1, exampleGroup2] (by decide) "c").2.2
      exampleGroup1 ("c", exampleRoute) (by decide) (by decide)⟩

/-- Helper: after consuming an entry, the accumulator slot of its field is
occupied exactly when the entry arms the duplicate check. -/
theorem accIsSome_applyEntry_self (a : Acc) (e : RouteMapEntry) :
    accIsSome (applyEntry a e) (entryField e) = arms e := by
  cases e with
  | hidden v => cases v <;> rfl
  | path v => rfl
  | description v => rfl
  | min_args v => rfl
  | max_args v => rfl

/-- Helper: consuming an entry does not change the accumulator slots of the
other fields. -/
theorem accIsSome_applyEntry_other (a : Acc) (e : RouteMapEntry) (f : Field)
    (h : entryField e ≠ f) :
    accIsSome (applyEntry a e) f = accIsSome a f := by
  cases e <;> cases f <;> simp_all [entryField, applyEntry, accIsSome]

/-- Helper: once the accumulator slot of some later entry is occupied, the
entry loop ends in a duplicate-field error. -/
theorem visitMapGo_error_of_acc (grt : String → RouteType)
    (l2 : List RouteMapEntry) :
    ∀ (a : Acc) (e2 : RouteMapEntry) (l3 : List RouteMapEntry),
    accIsSome a (entryField e2) = true →
    ∃ n, visitMapGo grt a (l2 ++ e2 :: l3) = .error (.duplicateField n) := by
  induction l2 with
  | nil =>
    intro a e2 l3 h
    exact ⟨fieldName (entryField e2), by simp [visitMapGo, h]⟩
  | cons e t ih =>
    intro a e2 l3 h
    by_cases he : accIsSome a (entryField e) = true
    · exact ⟨fieldName (entryField e), by simp [visitMapGo, he]⟩
    · have hne : entryField e ≠ entryField e2 := by
        intro hEq
        rw [hEq] at he
        exact he h
      have hpres : accIsSome (applyEntry a e) (entryField e2) = true := by
        rw [accIsSome_applyEntry_other a e (entryField e2) hne]
        exact h
      obtain ⟨n, hn⟩ := ih (applyEntry a e) e2 l3 hpres
      exact ⟨n, by simpa [visitMapGo, he] using hn⟩

/-- Helper: an arming entry followed anywhere later by an entry of the same
field makes the entry loop end in a duplicate-field error. -/
theorem visitMapGo_duplicate (grt : String → RouteType)
    (l1 : List RouteMapEntry) :
    ∀ (a : Acc) (e1 : RouteMapEntry) (l2 : List RouteMapEntry)
      (e2 : RouteMapEntry) (l3 : List RouteMapEntry),
    entryField e1 = entryField e2 → arms e1 = true →
    ∃ n, visitMapGo grt a (l1 ++ e1 :: l2 ++ e2 :: l3)
      = .error (.duplicateField n) := by
  induction l1 with
  | nil =>
    intro a e1 l2 e2 l3 hf ha
    by_cases he : accIsSome a (entryField e1) = true
    · exact ⟨fieldName (entryField e1), by simp [visitMapGo, he]⟩
    · have hpres : accIsSome (applyEntry a e1) (entryField e2) = true := by
        rw [← hf, accIsSome_applyEntry_self, ha]
      obtain ⟨n, hn⟩ := visitMapGo_error_of_acc grt l2 (applyEntry a e1) e2 l3 hpres
      exact ⟨n, by simpa [visitMapGo, he] using hn⟩
  | cons e t ih =>
    intro a e1 l2 e2 l3 hf ha
    by_cases he : accIsSome a (entryField e) = true
    · exact ⟨fieldName (entryField e), by simp [visitMapGo, he]⟩
    · obtain ⟨n, hn⟩ := ih (applyEntry a e) e1 l2 e2 l3 hf ha
      exact ⟨n, by simpa [visitMapGo, he] using hn⟩

/-- Helper: any route the entry loop successfully produces satisfies the
argument count range constraint. -/
theorem visitMapGo_ok_range (grt : String → RouteType)
    (l : List RouteMapEntry) :
    ∀ (a : Acc) (r : Route), visitMapGo grt a l = .ok r →
    ∀ mi ma, r.min_args = some mi → r.max_args = some ma → mi ≤ ma := by
  induction l with
  | nil =>
    intro a r h mi ma hmi hma
    simp only [visitMapGo, visitMapFinish] at h
    split at h
    · exact absurd h (by simp)
    case isFalse hcond =>
      cases hp : a.path with
      | none =>
        rw [hp] at h
        exact absurd h (by simp)
      | some path =>
        rw [hp] at h
        simp only [Except.ok.injEq] at h
        subst h
        simp only at hmi hma
        rw [hmi, hma] at hcond
        simp at hcond
        omega
  | cons e t ih =>
    intro a r h mi ma hmi hma
    by_cases he : accIsSome a (entryField e) = true
    · simp [visitMapGo, he] at h
    · simp only [visitMapGo, he] at h
      exact ih (applyEntry a e) r (by simpa using h) mi ma hmi hma



/-- C10 counterexample: a map-form route document in which `hidden` appears
twice, the first occurrence with a null value, deserializes successfully to a
route with the second value instead of failing with a duplicate-field
error. -/
theorem visit_map_hidden_duplicate_counterexample :
    visit_map (fun _ => RouteType.External)
      [.hidden none, .hidden (some true), .path "x"]
      = .ok { route_type := RouteType.External, path := "x", hidden := true
              description := none, min_args := none, max_args := none } := by
  rfl

/-- C10 amended: a second occurrence of a field fails deserialization with a
duplicate-field error whenever the earlier occurrence armed the duplicate
check, which every occurrence of `path`, `description`, `min_args` and
`max_args` does but an occurrence of `hidden` does only when its value is
non-null; and `min_args` greater than `max_args` is rejected at
deserialization time, so every successfully deserialized route satisfies the
range constraint. -/
theorem visit_map_duplicate_and_range (grt : String → RouteType)
    (entries : List RouteMapEntry) :
    (∀ l1 e1 l2 e2 l3, entries = l1 ++ e1 :: l2 ++ e2 :: l3 →
        entryField e1 = entryField e2 → arms e1 = true →
        ∃ n, visit_map grt entries = .error (.duplicateField n))
    ∧ ((∀ v, arms (RouteMapEntry.path v) = true)
        ∧ (∀ v, arms (RouteMapEntry.description v) = true)
        ∧ (∀ v, arms (RouteMapEntry.min_args v) = true)
        ∧ (∀ v, arms (RouteMapEntry.max_args v) = true)
        ∧ (∀ b, arms (RouteMapEntry.hidden (some b)) = true)
        ∧ arms (RouteMapEntry.hidden none) = false)
    ∧ (∀ r, visit_map grt entries = .ok r →
        ∀ mi ma, r.min_args = some mi → r.max_args = some ma → mi ≤ ma)
    ∧ (∀ p mi ma, mi > ma →
        visit_map grt [.path p, .min_args mi, .max_args ma]
          = .error (.invalidValue mi ma)) := by
  refine ⟨?_, ⟨fun v => rfl, fun v => rfl, fun v => rfl, fun v => rfl,
    fun b => rfl, rfl⟩, ?_, ?_⟩
  · intro l1 e1 l2 e2 l3 hsplit hf ha
    subst hsplit
    exact visitMapGo_duplicate grt l1 _ e1 l2 e2 l3 hf ha
  · intro r h mi ma hmi hma
    exact visitMapGo_ok_range grt entries _ r h mi ma hmi hma
  · intro p mi ma hgt
    simp [visit_map, visitMapGo, accIsSome, applyEntry, entryField,
      visitMapFinish, hgt]



/-- Witness for the amended C10 at concrete documents. -/
theorem visit_map_duplicate_and_range_witness :
    (∃ n, visit_map (fun _ => RouteType.External)
        [.path "a", .path "b"] = .error (.duplicateField n))
    ∧ visit_map (fun _ => RouteType.External)
        [.path "p", .min_args 3, .max_args 1] = .error (.invalidValue 3 1) :=
  ⟨(visit_map_duplicate_and_range (fun _ => RouteType.External)
      [.path "a", .path "b"]).1 [] (.path "a") [] (.path "b") [] rfl rfl rfl,
   (visit_map_duplicate_and_range (fun _ => RouteType.External)
      [.path "p", .min_args 3, .max_args 1]).2.2.2 "p" 3 1 (by decide)⟩

end BunBun
